import Mathlib

/-
Verification of the `#[domain_model]` attribute-macro expansion in
`src/libs/modkit-macros/src/domain_model.rs`.

The Rust function `expand_domain_model : &DeriveInput -> TokenStream` is a
pure source-to-source transformation.  We embed the relevant fragment of
`syn`'s data model (`DeriveInput`, `Data`, `Fields`, generics) and model the
emitted token stream as a structured list of items mirroring the `quote!`
blocks of the source, so that the spec's claims about the emitted code become
statements about that list.
-/

namespace DomainModelMacro

/-- A Rust type (`syn::Type`) modelled shallowly as its token sequence,
e.g. `Vec<T>` is `⟨["Vec", "<", "T", ">"]⟩`.  Token-level identity is all the
macro ever uses: types are interpolated verbatim into the output. -/
structure Ty where
  tokens : List String
deriving DecidableEq, Repr

/-- The field list of a struct or of an enum variant (`syn::Fields`):
named fields (`Fields::Named`), positional fields (`Fields::Unnamed`),
or no fields (`Fields::Unit`). -/
inductive Fields where
  | named (fields : List (String × Ty))
  | unnamed (fields : List Ty)
  | unit
deriving DecidableEq, Repr

/-- An enum variant (`syn::Variant`): a name and its own field list. -/
structure Variant where
  ident : String
  fields : Fields
deriving DecidableEq, Repr

/-- The body of the declaration (`syn::Data`): struct, enum or union. -/
inductive Data where
  | struct (fields : Fields)
  | enum (variants : List Variant)
  | union
deriving DecidableEq, Repr

/-- A generic parameter together with its bounds, e.g. `T : Clone`. -/
structure GenericParam where
  ident : String
  bounds : List String
deriving DecidableEq, Repr

/-- The generics of the declaration (`syn::Generics`): the parameter list
and the predicates of the where-clause (empty list = no where-clause). -/
structure Generics where
  params : List GenericParam
  whereClause : List String
deriving DecidableEq, Repr

/-- The parsed input declaration (`syn::DeriveInput`): outer attributes,
name, generics and body. -/
structure DeriveInput where
  attrs : List String
  ident : String
  generics : Generics
  data : Data
deriving DecidableEq, Repr

/-- Mirrors `Generics::split_for_impl`: the impl-generics (parameters with
their bounds), the type-generics (parameter names only), and the
where-clause, all taken verbatim from the declaration. -/
def Generics.split_for_impl (g : Generics) :
    List GenericParam × List String × List String :=
  (g.params, g.params.map (fun p => p.ident), g.whereClause)

/-- The field types of one `Fields` value, in declaration order.  Mirrors the
three inner `match` arms of the source (`fields.named.iter().map(|f| &f.ty)`,
`fields.unnamed.iter().map(|f| &f.ty)`, and `Fields::Unit => vec![]`). -/
def Fields.tys : Fields → List Ty
  | Fields.named fields => fields.map Prod.snd
  | Fields.unnamed fields => fields
  | Fields.unit => []

/-- The `field_types` collection of `expand_domain_model` (source lines
21-47): a struct contributes its own field types; an enum contributes, by
`flat_map` over the variants in order, each variant's field types
(variant-major, field-minor); a union takes the early-return error branch,
modelled as `none`. -/
def collectFieldTypes : Data → Option (List Ty)
  | Data.struct fields => some fields.tys
  | Data.enum variants => some ((variants.map (fun v => v.fields.tys)).flatten)
  | Data.union => none

/-- Which marker trait an emitted `impl` block registers:
`::modkit::domain::DomainSafe` or `::modkit::domain::DomainModel`. -/
inductive TraitMark where
  | domainSafe
  | domainModel
deriving DecidableEq, Repr

/-- The synthesized `const _: () = { ... }` validation block: the generic
parameters declared by `__assert_field_is_domain_safe`, the generic
parameters declared by `__validate_domain_model_fields`, and the sequence of
types at which `__assert_field_is_domain_safe::<_>()` is instantiated, in
emission order. -/
structure ValidationBlock where
  assertFnGenerics : List GenericParam
  validateFnGenerics : List GenericParam
  calls : List Ty
deriving DecidableEq, Repr

/-- One top-level item of the emitted token stream. -/
inductive Item where
  | original (input : DeriveInput)
  | implFor (mark : TraitMark) (implGenerics : List GenericParam)
      (name : String) (tyGenerics : List String) (whereClause : List String)
  | validation (block : ValidationBlock)
  | compileError (message : String) (spanIdent : String)
deriving DecidableEq, Repr

/-- The fixed generic-parameter list of the synthesized helper
`fn __assert_field_is_domain_safe<T: ::modkit::domain::DomainSafe>() {}`:
a single fresh parameter `T` bounded by the safety capability, written
literally in the `quote!` block and independent of the input. -/
def assertFnGenericParams : List GenericParam :=
  [⟨"T", ["::modkit::domain::DomainSafe"]⟩]

/-- The exact message of the union error (source lines 40-46). -/
def unionErrorMessage : String := "domain_model cannot be applied to unions"

/-- Embedding of `expand_domain_model` (source lines 16-76).

A union input takes the early `return syn::Error::new_spanned(name, ...)
.to_compile_error()` branch: the output is the single compile-error item,
spanned to the declaration's name.

Otherwise `field_types` is collected, `field_assertions` is the empty stream
when `field_types` is empty and the validation block otherwise (source lines
50-66), and the final `quote!` concatenates: the original input verbatim,
the `DomainSafe` impl, the `DomainModel` impl, then `field_assertions`
(source lines 68-75). -/
def expand_domain_model (input : DeriveInput) : List Item :=
  match collectFieldTypes input.data with
  | none =>
      [Item.compileError unionErrorMessage input.ident]
  | some field_types =>
      let g := input.generics.split_for_impl
      let field_assertions : List Item :=
        if field_types.isEmpty then []
        else [Item.validation ⟨assertFnGenericParams, [], field_types⟩]
      [Item.original input,
       Item.implFor TraitMark.domainSafe g.1 input.ident g.2.1 g.2.2,
       Item.implFor TraitMark.domainModel g.1 input.ident g.2.1 g.2.2]
      ++ field_assertions

/-- Tests whether an emitted item is a validation block. -/
def Item.isValidation : Item → Bool
  | Item.validation _ => true
  | _ => false

/-- Tests whether an emitted item is a marker `impl`. -/
def Item.isImpl : Item → Bool
  | Item.implFor _ _ _ _ _ => true
  | _ => false

/-- Tests whether an emitted item is a compile error. -/
def Item.isError : Item → Bool
  | Item.compileError _ _ => true
  | _ => false

/-- Tests whether an emitted item is the reproduced original declaration. -/
def Item.isOriginal : Item → Bool
  | Item.original _ => true
  | _ => false

/-- The Rust standard `String` type, as a token sequence. -/
def tyString : Ty := ⟨["String"]⟩

/-- The Rust primitive `i32` type, as a token sequence. -/
def tyI32 : Ty := ⟨["i32"]⟩

/-- The bare generic-parameter type `T`, as a token sequence. -/
def tyT : Ty := ⟨["T"]⟩

/-- The struct `User { id: String, name: String }` from the source's test
suite: two fields of the same type, so the field-type sequence has a
duplicate. -/
def sampleUser : DeriveInput :=
  ⟨[], "User", ⟨[], []⟩,
   Data.struct (Fields.named [("id", tyString), ("name", tyString)])⟩

/-- A raw union declaration named `RawData`. -/
def sampleUnion : DeriveInput :=
  ⟨[], "RawData", ⟨[], []⟩, Data.union⟩

/-- The unit struct `Marker` from the source's test suite. -/
def sampleMarker : DeriveInput :=
  ⟨[], "Marker", ⟨[], []⟩, Data.struct Fields.unit⟩

/-- An enum whose variants are all unit-shaped. -/
def sampleAllUnit : DeriveInput :=
  ⟨[], "Flag", ⟨[], []⟩,
   Data.enum [⟨"On", Fields.unit⟩, ⟨"Off", Fields.unit⟩]⟩

/-- The enum `Status { Active, Inactive { reason: String }, Pending(i32) }`
from the source's test suite and from the spec's worked example. -/
def sampleStatus : DeriveInput :=
  ⟨[], "Status", ⟨[], []⟩,
   Data.enum [⟨"Active", Fields.unit⟩,
              ⟨"Inactive", Fields.named [("reason", tyString)]⟩,
              ⟨"Pending", Fields.unnamed [tyI32]⟩]⟩

/-- The generic struct `Container<T> { value: T }` from the source's test
suite. -/
def sampleContainer : DeriveInput :=
  ⟨[], "Container", ⟨[⟨"T", []⟩], []⟩,
   Data.struct (Fields.named [("value", tyT)])⟩

/-- On every non-union input, the success branch of `expand_domain_model`
fires: the output is the original declaration, the two impls, and the
optional validation block. -/
lemma expand_success (input : DeriveInput) (fts : List Ty)
    (hft : collectFieldTypes input.data = some fts) :
    expand_domain_model input =
      [Item.original input,
       Item.implFor TraitMark.domainSafe input.generics.params input.ident
         (input.generics.params.map (fun p => p.ident)) input.generics.whereClause,
       Item.implFor TraitMark.domainModel input.generics.params input.ident
         (input.generics.params.map (fun p => p.ident)) input.generics.whereClause]
      ++ (if fts.isEmpty then []
          else [Item.validation ⟨assertFnGenericParams, [], fts⟩]) := by
  simp only [expand_domain_model, hft, Generics.split_for_impl]

/-- When the collected field-type sequence is non-empty, the output has
exactly one validation block, whose assertion calls are that sequence. -/
lemma filter_validation_of_nonempty (input : DeriveInput) (fts : List Ty)
    (hft : collectFieldTypes input.data = some fts) (hne : fts ≠ []) :
    (expand_domain_model input).filter Item.isValidation =
      [Item.validation ⟨assertFnGenericParams, [], fts⟩] := by
  have he : fts.isEmpty = false := by
    cases fts with
    | nil => exact absurd rfl hne
    | cons a l => rfl
  rw [expand_success input fts hft]
  simp [he, Item.isValidation, List.filter_append]

/-- C1: for every well-formed non-union declaration whose flattened
field-type sequence is non-empty, the emitted output contains exactly one
compile-time validation block, and that block holds one independent
safety-capability assertion per entry of the field-type sequence, in the
same order, with duplicate occurrences not deduplicated (the assertion-call
list is equal, as a list, to the field-type sequence). -/
theorem claim_C1_one_assertion_per_entry (input : DeriveInput) (fts : List Ty)
    (hft : collectFieldTypes input.data = some fts) (hne : fts ≠ []) :
    (expand_domain_model input).filter Item.isValidation =
      [Item.validation ⟨assertFnGenericParams, [], fts⟩] :=
  filter_validation_of_nonempty input fts hft hne

/-- Witness for C1 at `User { id: String, name: String }`: the field-type
sequence is `[String, String]` and the single validation block asserts
`String` twice, in order, undeduplicated. -/
theorem claim_C1_witness :
    (expand_domain_model sampleUser).filter Item.isValidation =
      [Item.validation ⟨assertFnGenericParams, [], [tyString, tyString]⟩] :=
  claim_C1_one_assertion_per_entry sampleUser [tyString, tyString] rfl
    (by decide)

/-- C2: for every enum declaration, the extracted field-type sequence is the
variant-major, field-minor flattening (each variant's field types in field
order, variants in declaration order, unit variants contributing nothing);
and on the spec's example `Active` (unit), `Inactive { reason: String }`,
`Pending(i32)` it is exactly `[String, i32]`. -/
theorem claim_C2_enum_flattening (variants : List Variant) :
    collectFieldTypes (Data.enum variants) =
        some ((variants.map (fun v => v.fields.tys)).flatten)
      ∧ collectFieldTypes sampleStatus.data = some [tyString, tyI32] :=
  ⟨rfl, rfl⟩

/-- C3: an input produces a compile error exactly when it is a union, and in
that case the output is the single compile-error item with message exactly
"domain_model cannot be applied to unions", spanned to the declaration's
name token. -/
theorem claim_C3_union_only_error (input : DeriveInput) :
    ((expand_domain_model input).any Item.isError = true ↔
        input.data = Data.union)
      ∧ (input.data = Data.union →
          expand_domain_model input =
            [Item.compileError "domain_model cannot be applied to unions"
              input.ident]) := by
  constructor
  · cases h : input.data with
    | struct fields =>
        rw [expand_success input fields.tys (by rw [h]; rfl)]
        constructor
        · intro hany
          exfalso
          rcases (List.any_eq_true).1 hany with ⟨it, hmem, hit⟩
          rcases List.mem_append.1 hmem with hl | hr
          · fin_cases hl <;> simp [Item.isError] at hit
          · rcases it with _ | _ | _ | _ <;> simp [Item.isError] at hit
            by_cases he : fields.tys.isEmpty <;> simp [he] at hr
        · intro hu
          exact absurd hu (by simp)
    | enum variants =>
        rw [expand_success input
          ((variants.map (fun v => v.fields.tys)).flatten) (by rw [h]; rfl)]
        constructor
        · intro hany
          exfalso
          rcases (List.any_eq_true).1 hany with ⟨it, hmem, hit⟩
          rcases List.mem_append.1 hmem with hl | hr
          · fin_cases hl <;> simp [Item.isError] at hit
          · rcases it with _ | _ | _ | _ <;> simp [Item.isError] at hit
            by_cases he :
                ((variants.map (fun v => v.fields.tys)).flatten).isEmpty <;>
              simp [he] at hr
        · intro hu
          exact absurd hu (by simp)
    | union =>
        simp [expand_domain_model, collectFieldTypes, h, Item.isError]
  · intro h
    simp [expand_domain_model, collectFieldTypes, h, unionErrorMessage]

/-- Witness for C3 at the union `RawData`: the output is exactly the one
compile-error item, spanned to the name "RawData". -/
theorem claim_C3_witness :
    (expand_domain_model sampleUnion).any Item.isError = true
      ∧ expand_domain_model sampleUnion =
          [Item.compileError "domain_model cannot be applied to unions"
            "RawData"] :=
  ⟨(claim_C3_union_only_error sampleUnion).1.mpr rfl,
   (claim_C3_union_only_error sampleUnion).2 rfl⟩

/-- C4: for every union-shaped input, the transformer returns only the
diagnostic (message plus the name token as source anchor) and emits no code:
no original declaration, no marker registration, no validation block. -/
theorem claim_C4_union_emits_no_code (input : DeriveInput)
    (h : input.data = Data.union) :
    expand_domain_model input =
        [Item.compileError unionErrorMessage input.ident]
      ∧ (expand_domain_model input).all
          (fun it => !(it.isOriginal || it.isImpl || it.isValidation)) =
        true := by
  constructor
  · simp [expand_domain_model, collectFieldTypes, h]
  · simp [expand_domain_model, collectFieldTypes, h, Item.isOriginal,
      Item.isImpl, Item.isValidation]

/-- Witness for C4 at the union `RawData`. -/
theorem claim_C4_witness :
    expand_domain_model sampleUnion =
        [Item.compileError unionErrorMessage "RawData"]
      ∧ (expand_domain_model sampleUnion).all
          (fun it => !(it.isOriginal || it.isImpl || it.isValidation)) =
        true :=
  claim_C4_union_emits_no_code sampleUnion rfl

/-- C5: for every declaration with an empty field-type sequence, the output
is exactly the original declaration plus the two marker registrations — no
validation block at all appears in it. -/
theorem claim_C5_empty_no_validation_block (input : DeriveInput)
    (h : collectFieldTypes input.data = some []) :
    expand_domain_model input =
      [Item.original input,
       Item.implFor TraitMark.domainSafe input.generics.params input.ident
         (input.generics.params.map (fun p => p.ident))
         input.generics.whereClause,
       Item.implFor TraitMark.domainModel input.generics.params input.ident
         (input.generics.params.map (fun p => p.ident))
         input.generics.whereClause] := by
  rw [expand_success input [] h]
  simp

/-- Witness for C5 at the unit struct `Marker` and at the enum `Flag` whose
variants are all unit: both outputs carry the two marker registrations and
no validation block. -/
theorem claim_C5_witness :
    expand_domain_model sampleMarker =
        [Item.original sampleMarker,
         Item.implFor TraitMark.domainSafe [] "Marker" [] [],
         Item.implFor TraitMark.domainModel [] "Marker" [] []]
      ∧ expand_domain_model sampleAllUnit =
          [Item.original sampleAllUnit,
           Item.implFor TraitMark.domainSafe [] "Flag" [] [],
           Item.implFor TraitMark.domainModel [] "Flag" [] []] :=
  ⟨claim_C5_empty_no_validation_block sampleMarker rfl,
   claim_C5_empty_no_validation_block sampleAllUnit rfl⟩

/-- C6: for every non-union declaration, the output contains exactly two
marker impls — `DomainSafe` first, then `DomainModel` — for the
declaration's name, each carrying the declaration's generic parameters with
their bounds, its type-generics, and its where-clause verbatim. -/
theorem claim_C6_exactly_two_marker_impls (input : DeriveInput)
    (h : input.data ≠ Data.union) :
    (expand_domain_model input).filter Item.isImpl =
      [Item.implFor TraitMark.domainSafe input.generics.params input.ident
         (input.generics.params.map (fun p => p.ident))
         input.generics.whereClause,
       Item.implFor TraitMark.domainModel input.generics.params input.ident
         (input.generics.params.map (fun p => p.ident))
         input.generics.whereClause] := by
  obtain ⟨fts, hft⟩ : ∃ fts, collectFieldTypes input.data = some fts := by
    cases hd : input.data with
    | struct fields => exact ⟨_, rfl⟩
    | enum variants => exact ⟨_, rfl⟩
    | union => exact absurd hd h
  rw [expand_success input fts hft]
  by_cases he : fts.isEmpty <;>
    simp [he, Item.isImpl, List.filter_append]

/-- Witness for C6 at the generic struct `Container<T> { value: T }`: the
two impls carry the parameter `T` and its (empty) bounds verbatim. -/
theorem claim_C6_witness :
    (expand_domain_model sampleContainer).filter Item.isImpl =
      [Item.implFor TraitMark.domainSafe [⟨"T", []⟩] "Container" ["T"] [],
       Item.implFor TraitMark.domainModel [⟨"T", []⟩] "Container" ["T"] []] :=
  claim_C6_exactly_two_marker_impls sampleContainer (by decide)

/-- C7: for every non-union declaration, the output is exactly the
concatenation, in order, of the original declaration verbatim, the two
marker impls, and the optional validation block; in particular the original
declaration appears first. -/
theorem claim_C7_emission_order (input : DeriveInput) (fts : List Ty)
    (hft : collectFieldTypes input.data = some fts) :
    expand_domain_model input =
        [Item.original input,
         Item.implFor TraitMark.domainSafe input.generics.params input.ident
           (input.generics.params.map (fun p => p.ident))
           input.generics.whereClause,
         Item.implFor TraitMark.domainModel input.generics.params input.ident
           (input.generics.params.map (fun p => p.ident))
           input.generics.whereClause]
        ++ (if fts.isEmpty then []
            else [Item.validation ⟨assertFnGenericParams, [], fts⟩])
      ∧ (expand_domain_model input).head? = some (Item.original input) := by
  refine ⟨expand_success input fts hft, ?_⟩
  rw [expand_success input fts hft]
  rfl

/-- Witness for C7 at `User { id: String, name: String }`. -/
theorem claim_C7_witness :
    expand_domain_model sampleUser =
        [Item.original sampleUser,
         Item.implFor TraitMark.domainSafe [] "User" [] [],
         Item.implFor TraitMark.domainModel [] "User" [] []]
        ++ (if [tyString, tyString].isEmpty then []
            else [Item.validation
                    ⟨assertFnGenericParams, [], [tyString, tyString]⟩])
      ∧ (expand_domain_model sampleUser).head? =
          some (Item.original sampleUser) :=
  claim_C7_emission_order sampleUser [tyString, tyString] rfl

/-- C8: the transformer is deterministic — running it twice on the same
input yields identical emitted code; it is a pure function of the input with
no hidden state between invocations. -/
theorem claim_C8_deterministic (a b : DeriveInput) (h : a = b) :
    expand_domain_model a = expand_domain_model b := by
  rw [h]

/-- Witness for C8: two runs on the `User` struct agree. -/
theorem claim_C8_witness :
    expand_domain_model sampleUser = expand_domain_model sampleUser :=
  claim_C8_deterministic sampleUser sampleUser rfl

/-- C9: the transformation is total — every parsed declaration (struct with
named, positional or no fields; enum with any mix of variant shapes; union)
is handled by an explicit branch: a union yields exactly the error item, and
every other shape yields emitted code headed by the original declaration. -/
theorem claim_C9_total (input : DeriveInput) :
    (input.data = Data.union
        ∧ expand_domain_model input =
            [Item.compileError unionErrorMessage input.ident])
      ∨ (input.data ≠ Data.union
          ∧ (expand_domain_model input).head? =
              some (Item.original input)) := by
  cases h : input.data with
  | struct fields =>
      right
      refine ⟨by simp [h], ?_⟩
      cases fields with
      | named fs => rw [expand_success input (fs.map Prod.snd) (by rw [h]; rfl)]; rfl
      | unnamed fs => rw [expand_success input fs (by rw [h]; rfl)]; rfl
      | unit => rw [expand_success input [] (by rw [h]; rfl)]; rfl
  | enum variants =>
      right
      refine ⟨by simp [h], ?_⟩
      rw [expand_success input ((variants.map (fun v => v.fields.tys)).flatten)
        (by rw [h]; rfl)]
      rfl
  | union =>
      left
      exact ⟨rfl, by simp [expand_domain_model, collectFieldTypes, h]⟩

/-- C10: for every non-union declaration whose field-type sequence is
non-empty, the single synthesized validation block carries none of the
declaration's generic parameters: `__validate_domain_model_fields` declares
no generic parameter at all, `__assert_field_is_domain_safe` declares only
the fixed fresh `T : DomainSafe` independent of the input, and every field
type — including one whose tokens mention a declaration parameter — is
instantiated as written inside that parameterless function. -/
theorem claim_C10_validation_fns_not_generic (input : DeriveInput)
    (fts : List Ty) (p : GenericParam) (t : Ty)
    (hft : collectFieldTypes input.data = some fts)
    (_hp : p ∈ input.generics.params) (ht : t ∈ fts)
    (_hm : p.ident ∈ t.tokens) :
    ∃ vb : ValidationBlock,
      (expand_domain_model input).filter Item.isValidation =
          [Item.validation vb]
        ∧ vb.calls = fts
        ∧ t ∈ vb.calls
        ∧ vb.validateFnGenerics = []
        ∧ vb.assertFnGenerics = assertFnGenericParams
        ∧ p.ident ∉ vb.validateFnGenerics.map GenericParam.ident := by
  have hne : fts ≠ [] := by
    intro hnil
    rw [hnil] at ht
    exact absurd ht (List.not_mem_nil t)
  exact ⟨⟨assertFnGenericParams, [], fts⟩,
    filter_validation_of_nonempty input fts hft hne,
    rfl, ht, rfl, rfl, by simp⟩

/-- Witness for C10 at `Container<T> { value: T }`: the field type `T`
mentions the declaration's parameter `T`, yet the validation block's
`__validate_domain_model_fields` declares no generic parameter. -/
theorem claim_C10_witness :
    ∃ vb : ValidationBlock,
      (expand_domain_model sampleContainer).filter Item.isValidation =
          [Item.validation vb]
        ∧ vb.calls = [tyT]
        ∧ tyT ∈ vb.calls
        ∧ vb.validateFnGenerics = []
        ∧ vb.assertFnGenerics = assertFnGenericParams
        ∧ "T" ∉ vb.validateFnGenerics.map GenericParam.ident :=
  claim_C10_validation_fns_not_generic sampleContainer [tyT] ⟨"T", []⟩ tyT
    rfl (by decide) (by decide) (by decide)

end DomainModelMacro
